import Mathlib

/-!
Shallow embedding of the news-article analysis pipeline in `src/a.py`.

Article text is modelled as `List Char` (Python strings indexed by code
points), model confidences as `ℚ` (exact abstraction of Python floats),
and Python `round(x, 2)` as round-half-to-even on rationals.  The three
external collaborators (page extractor, summarization model, sentiment
model) are black boxes: they become function fields of `Env`.  Each model
call also receives a `Nat` occasion argument so that "two calls on the
same input" is expressible; a model whose output ignores the occasion is
deterministic.  The `st.error` display side effects of the Python code
carry no data and are not modelled.
-/

namespace NewsApp

abbrev Text := List Char

/-- Python `str.split()` word: longest whitespace-free run from the front. -/
def takeWord (l : Text) : Text := l.takeWhile (fun c => !c.isWhitespace)

/-- Remainder of the input after `takeWord`. -/
def dropWord (l : Text) : Text := l.dropWhile (fun c => !c.isWhitespace)

lemma dropWord_length_le (l : Text) : (dropWord l).length ≤ l.length := by
  unfold dropWord
  induction l with
  | nil => simp
  | cons c rest ih =>
    rw [List.dropWhile_cons]
    by_cases h : (!c.isWhitespace) = true
    · simp only [h, if_true]
      exact Nat.le_succ_of_le ih
    · simp [h]

/-- Python `text.split()`: split on runs of whitespace, dropping empties. -/
def splitWords : Text → List Text
  | [] => []
  | c :: rest =>
    if c.isWhitespace then splitWords rest
    else (c :: takeWord rest) :: splitWords (dropWord rest)
termination_by l => l.length
decreasing_by
  · simp only [List.length_cons]; omega
  · simp only [List.length_cons]; exact Nat.lt_succ_of_le (dropWord_length_le rest)

/-- Python `" ".join(ws)`: concatenate with single spaces between items. -/
def joinSpace : List Text → Text
  | [] => []
  | [w] => w
  | w :: ws => w ++ ' ' :: joinSpace ws

/-- Python `str.upper()`: character-wise uppercasing (the labels at issue
are ASCII, where `Char.toUpper` matches Python). -/
def pyUpper (s : String) : String := ⟨s.data.map Char.toUpper⟩

/-- Round-half-to-even to an integer, as Python `round` on exact values. -/
def rhe (x : ℚ) : ℤ :=
  if x - ⌊x⌋ < 1 / 2 then ⌊x⌋
  else if 1 / 2 < x - ⌊x⌋ then ⌊x⌋ + 1
  else if ⌊x⌋ % 2 = 0 then ⌊x⌋ else ⌊x⌋ + 1

/-- Python `round(q, 2)`. -/
def round2 (q : ℚ) : ℚ := (rhe (q * 100) : ℚ) / 100

/-- Arguments the code hands to the summarization model (line 37). -/
structure SummArgs where
  input : Text
  max_length : Nat
  min_length : Nat
  do_sample : Bool
deriving DecidableEq

/-- The three external collaborators.  `Except.error` models a raised
exception.  The trailing `Nat` is the call occasion: it lets a model be
nondeterministic across calls, which the determinism claims constrain. -/
structure Env where
  extractRaw : String → Except Unit Text
  summarizerModel : SummArgs → Nat → Except Unit String
  sentimentModel : Text → Nat → Except Unit (String × ℚ)

/-- Embeds `extract_article_text` (lines 19-27): returns the extracted text, or
`none` when the extractor raises (the `except` branch returns `None`). -/
def extract_article_text (env : Env) (url : String) : Option Text :=
  match env.extractRaw url with
  | .ok t => some t
  | .error _ => none

/-- The text `generate_summary` submits to the model (lines 32-35):
inputs above 1024 whitespace-delimited words are cut to the first 1024
words rejoined with single spaces; shorter inputs pass unchanged. -/
def summarizerInput (text : Text) : Text :=
  let words := splitWords text
  if words.length > 1024 then joinSpace (words.take 1024) else text

/-- Embeds `generate_summary` (lines 30-41): truncate, call the model with
`max_length=130, min_length=30, do_sample=False`; on a raised error
return the sentinel string instead. -/
def generate_summary (env : Env) (occ : Nat) (text : Text) : String :=
  match env.summarizerModel ⟨summarizerInput text, 130, 30, false⟩ occ with
  | .ok s => s
  | .error _ => "Summary generation failed."

/-- The text `analyze_sentiment` submits to the model: `text[:512]`. -/
def sentimentInput (text : Text) : Text := text.take 512

/-- Embeds `analyze_sentiment` (lines 44-55): classify the first 512 characters;
importance is `score*100` when the upper-cased label is `POSITIVE`, else
`-score*100`, rounded to 2 decimals; on a raised error return `("N/A", 0)`. -/
def analyze_sentiment (env : Env) (occ : Nat) (text : Text) : String × ℚ :=
  match env.sentimentModel (sentimentInput text) occ with
  | .ok (label, score) =>
    let importance_score := if pyUpper label = "POSITIVE" then score * 100 else -score * 100
    (label, round2 importance_score)
  | .error _ => ("N/A", 0)

/-- Embeds `analyze_article` (lines 58-64): gate `not article_text or
len(article_text) < 100`, then summary and sentiment on the full text. -/
def analyze_article (env : Env) (occ : Nat) (url : String) :
    Option String × Option String × Option ℚ :=
  match extract_article_text env url with
  | none => (none, none, none)
  | some t =>
    if t = [] ∨ t.length < 100 then (none, none, none)
    else
      let summary := generate_summary env occ t
      let si := analyze_sentiment env occ t
      (some summary, some si.1, some si.2)

/-- One row of the batch-mode results table (lines 96-102). -/
structure Row where
  title : String
  url : String
  summary : String
  sentiment : Option String
  importance : Option ℚ

/-- The `results` list built by the Preloaded Articles branch
(lines 85-103): one `analyze_article` call per article, in order, skipping
(`continue`) articles whose summary came back `None`.  Successive calls
are successive occasions. -/
def runBatch (env : Env) : Nat → List (String × String) → List Row
  | _, [] => []
  | occ, (title, url) :: rest =>
    match analyze_article env occ url with
    | (none, _, _) => runBatch env (occ + 1) rest
    | (some s, l, i) => ⟨title, url, s, l, i⟩ :: runBatch env (occ + 1) rest

/-- The gate an article must pass to be analyzed: extraction succeeded
and the text reached 100 characters. -/
def gatePasses (env : Env) (url : String) : Bool :=
  match extract_article_text env url with
  | some t => decide (100 ≤ t.length)
  | none => false

/-! Bounds for round-half-to-even and `round2`. -/

lemma floor_le_rhe (x : ℚ) : ⌊x⌋ ≤ rhe x := by
  unfold rhe
  split
  · exact le_refl _
  · split
    · omega
    · split
      · exact le_refl _
      · omega

lemma le_rhe (x : ℚ) (n : ℤ) (h : (n : ℚ) ≤ x) : n ≤ rhe x :=
  le_trans (Int.le_floor.mpr h) (floor_le_rhe x)

lemma rhe_le (x : ℚ) (n : ℤ) (h : x ≤ (n : ℚ)) : rhe x ≤ n := by
  have hf : ⌊x⌋ ≤ n := by
    have := Int.floor_mono h
    rwa [Int.floor_intCast] at this
  unfold rhe
  split
  · exact hf
  · rename_i hr
    push_neg at hr
    have hx : (⌊x⌋ : ℚ) + 1 / 2 ≤ x := by
      have := Int.floor_le x
      linarith
    have hlt : ⌊x⌋ < n := by
      have : (⌊x⌋ : ℚ) < (n : ℚ) := by linarith
      exact_mod_cast this
    split
    · omega
    · split
      · exact hf
      · omega

lemma round2_le (q : ℚ) (n : ℤ) (h : q ≤ (n : ℚ)) : round2 q ≤ (n : ℚ) := by
  unfold round2
  have h1 : q * 100 ≤ ((n * 100 : ℤ) : ℚ) := by push_cast; linarith
  have h2 : rhe (q * 100) ≤ n * 100 := rhe_le _ _ h1
  rw [div_le_iff₀ (by norm_num : (0 : ℚ) < 100)]
  have : (rhe (q * 100) : ℚ) ≤ ((n * 100 : ℤ) : ℚ) := by exact_mod_cast h2
  push_cast at this ⊢
  linarith

lemma le_round2 (q : ℚ) (n : ℤ) (h : (n : ℚ) ≤ q) : (n : ℚ) ≤ round2 q := by
  unfold round2
  have h1 : ((n * 100 : ℤ) : ℚ) ≤ q * 100 := by push_cast; linarith
  have h2 : n * 100 ≤ rhe (q * 100) := le_rhe _ _ h1
  rw [le_div_iff₀ (by norm_num : (0 : ℚ) < 100)]
  have : ((n * 100 : ℤ) : ℚ) ≤ (rhe (q * 100) : ℚ) := by exact_mod_cast h2
  push_cast at this ⊢
  linarith

/-! Structure of `splitWords` output and its interaction with `joinSpace`. -/

lemma splitWords_sound : ∀ l : Text, ∀ w ∈ splitWords l, w ≠ [] ∧ ∀ c ∈ w, c.isWhitespace = false := by
  intro l
  induction l using splitWords.induct with
  | case1 => simp [splitWords]
  | case2 c rest h ih =>
    rw [splitWords, if_pos h]
    exact ih
  | case3 c rest h ih =>
    rw [splitWords, if_neg h]
    intro w hw
    rcases List.mem_cons.mp hw with hw | hw
    · subst hw
      refine ⟨by simp, ?_⟩
      intro x hx
      rcases List.mem_cons.mp hx with hx | hx
      · subst hx
        simpa using h
      · simp only [takeWord] at hx
        have := List.mem_takeWhile_imp hx
        simpa using this
    · exact ih w hw

lemma takeWord_flush (w : Text) (hw : ∀ c ∈ w, c.isWhitespace = false) (r : Text) :
    takeWord (w ++ ' ' :: r) = w ∧ dropWord (w ++ ' ' :: r) = ' ' :: r := by
  have hall : ∀ c ∈ w, (fun c : Char => !c.isWhitespace) c = true := by
    intro c hc
    simp [hw c hc]
  constructor
  · rw [takeWord, List.takeWhile_append_of_pos hall]
    simp [List.takeWhile_cons_of_neg]
  · rw [dropWord, List.dropWhile_append_of_pos hall]
    simp [List.dropWhile_cons_of_neg]

lemma splitWords_single (w : Text) (hne : w ≠ []) (hw : ∀ c ∈ w, c.isWhitespace = false) :
    splitWords w = [w] := by
  obtain ⟨c, w', rfl⟩ := List.exists_cons_of_ne_nil hne
  have hc : c.isWhitespace = false := hw c (by simp)
  rw [splitWords, if_neg (by simp [hc])]
  have ht : takeWord w' = w' := by
    rw [takeWord, List.takeWhile_eq_self_iff.mpr]
    intro x hx
    simp [hw x (by simp [hx])]
  have hd : dropWord w' = [] := by
    rw [dropWord, List.dropWhile_eq_nil_iff.mpr]
    intro x hx
    simp [hw x (by simp [hx])]
  rw [ht, hd]
  simp [splitWords]

lemma joinSpace_cons2 (w w2 : Text) (ws : List Text) :
    joinSpace (w :: w2 :: ws) = w ++ ' ' :: joinSpace (w2 :: ws) := rfl

lemma splitWords_joinSpace :
    ∀ ws : List Text, (∀ w ∈ ws, w ≠ [] ∧ ∀ c ∈ w, c.isWhitespace = false) →
      splitWords (joinSpace ws) = ws := by
  intro ws
  induction ws with
  | nil => intro _; simp [joinSpace, splitWords]
  | cons w ws ih =>
    intro h
    cases ws with
    | nil =>
      rw [joinSpace]
      exact splitWords_single w (h w (by simp)).1 (h w (by simp)).2
    | cons w2 ws2 =>
      rw [joinSpace_cons2]
      obtain ⟨hne, hw⟩ := h w (by simp)
      obtain ⟨c, w', rfl⟩ := List.exists_cons_of_ne_nil hne
      have hc : c.isWhitespace = false := hw c (by simp)
      have hw' : ∀ x ∈ w', x.isWhitespace = false := fun x hx => hw x (by simp [hx])
      rw [List.cons_append, splitWords, if_neg (by simp [hc])]
      obtain ⟨ht, hd⟩ := takeWord_flush w' hw' (joinSpace (w2 :: ws2))
      rw [ht, hd, splitWords, if_pos (by simp)]
      rw [ih (fun x hx => h x (by simp [hx]))]

lemma joinSpace_space_only (ws : List Text)
    (h : ∀ w ∈ ws, ∀ c ∈ w, c.isWhitespace = false) :
    ∀ c ∈ joinSpace ws, c.isWhitespace = true → c = ' ' := by
  induction ws with
  | nil => simp [joinSpace]
  | cons w ws ih =>
    cases ws with
    | nil =>
      rw [joinSpace]
      intro c hc hcws
      have := h w (by simp) c hc
      rw [this] at hcws
      exact absurd hcws (by simp)
    | cons w2 ws2 =>
      rw [joinSpace_cons2]
      intro c hc hcws
      rcases List.mem_append.mp hc with hc | hc
      · have := h w (by simp) c hc
        rw [this] at hcws
        exact absurd hcws (by simp)
      · rcases List.mem_cons.mp hc with rfl | hc
        · rfl
        · exact ih (fun x hx => h x (by simp [hx])) c hc hcws

/-- Tokens of the text actually submitted to the summarization model:
truncation rejoins the first 1024 words exactly. -/
lemma splitWords_summarizerInput (text : Text) :
    splitWords (summarizerInput text) = (splitWords text).take 1024 := by
  simp only [summarizerInput]
  split
  · exact splitWords_joinSpace _ (fun w hw => splitWords_sound text w (List.take_subset _ _ hw))
  · rename_i hlen
    push_neg at hlen
    exact (List.take_of_length_le hlen).symm

lemma joinSpace_single (w : Text) : joinSpace [w] = w := rfl

/-- Case analysis on the sentiment branch of the pipeline. -/
lemma analyze_sentiment_cases (env : Env) (occ : Nat) (text : Text) :
    (∃ lab c, env.sentimentModel (sentimentInput text) occ = .ok (lab, c) ∧
      analyze_sentiment env occ text =
        (lab, round2 (if pyUpper lab = "POSITIVE" then c * 100 else -c * 100))) ∨
    (env.sentimentModel (sentimentInput text) occ = .error () ∧
      analyze_sentiment env occ text = ("N/A", 0)) := by
  unfold analyze_sentiment
  cases hs : env.sentimentModel (sentimentInput text) occ with
  | ok p => exact Or.inl ⟨p.1, p.2, by rw [← hs], by simp⟩
  | error e => exact Or.inr ⟨by rw [← hs], by simp⟩

/-- Batch rows are exactly the gate-passing articles, in order. -/
lemma runBatch_rows (env : Env) :
    ∀ (articles : List (String × String)) (occ : Nat),
      (runBatch env occ articles).map (fun r => (r.title, r.url)) =
        articles.filter (fun p => gatePasses env p.2) := by
  intro articles
  induction articles with
  | nil => intro occ; simp [runBatch]
  | cons p rest ih =>
    intro occ
    obtain ⟨title, url⟩ := p
    rw [runBatch]
    rcases hex : extract_article_text env url with _ | t
    · have ha : analyze_article env occ url = (none, none, none) := by
        simp [analyze_article, hex]
      have hg : gatePasses env url = false := by simp [gatePasses, hex]
      rw [ha]
      simp only [List.filter_cons, hg]
      exact ih (occ + 1)
    · by_cases hgate : t = [] ∨ t.length < 100
      · have ha : analyze_article env occ url = (none, none, none) := by
          simp [analyze_article, hex, hgate]
        have hg : gatePasses env url = false := by
          simp only [gatePasses, hex]
          rcases hgate with rfl | h
          · simp
          · simp; omega
        rw [ha]
        simp only [List.filter_cons, hg]
        exact ih (occ + 1)
      · have ha : analyze_article env occ url =
            (some (generate_summary env occ t), some (analyze_sentiment env occ t).1,
              some (analyze_sentiment env occ t).2) := by
          simp [analyze_article, hex, hgate]
        have hg : gatePasses env url = true := by
          push_neg at hgate
          simp only [gatePasses, hex]
          simp
          omega
        rw [ha]
        simp only [List.filter_cons, hg, List.map_cons]
        rw [ih (occ + 1)]
        simp

/-! Concrete environments used to exercise the theorems. -/

/-- A 100-character article text. -/
def demoText : Text := List.replicate 100 'a'

/-- Extraction succeeds, models succeed, sentiment is (POSITIVE, 0.87). -/
def envPos : Env :=
  ⟨fun _ => .ok demoText, fun _ _ => .ok "A summary.", fun _ _ => .ok ("POSITIVE", 87 / 100)⟩

/-- Extraction succeeds, models succeed, sentiment is (NEGATIVE, 0.42). -/
def envNeg : Env :=
  ⟨fun _ => .ok demoText, fun _ _ => .ok "A summary.", fun _ _ => .ok ("NEGATIVE", 42 / 100)⟩

/-- Every external call raises. -/
def envErr : Env := ⟨fun _ => .error (), fun _ _ => .error (), fun _ _ => .error ()⟩

/-- Extraction succeeds but the text is 2 characters long. -/
def envShort : Env :=
  ⟨fun _ => .ok ['h', 'i'], fun _ _ => .ok "A summary.", fun _ _ => .ok ("POSITIVE", 1 / 2)⟩

/-! The claims. -/

/-- Claim C1: for every URL where extraction fails (the extractor raises,
modelled as `none`) or where the extracted text is shorter than 100
characters, `analyze_article` returns the all-absent triple.  The
embedding is total, so no exception escapes. -/
theorem claim1_gate_all_absent (env : Env) (occ : Nat) (url : String)
    (h : extract_article_text env url = none ∨
      ∃ t, extract_article_text env url = some t ∧ t.length < 100) :
    analyze_article env occ url = (none, none, none) := by
  rcases h with h | ⟨t, ht, hlen⟩
  · simp [analyze_article, h]
  · simp [analyze_article, ht, hlen]

/-- Witness for C1: a raising extractor and a 2-character article. -/
theorem claim1_witness :
    analyze_article envErr 0 "u" = (none, none, none) ∧
      analyze_article envShort 0 "u" = (none, none, none) :=
  ⟨claim1_gate_all_absent envErr 0 "u" (Or.inl rfl),
   claim1_gate_all_absent envShort 0 "u" (Or.inr ⟨['h', 'i'], rfl, by norm_num⟩)⟩

/-- Claim C2: whenever the sentiment model succeeds with label `L` and
confidence `c`, `analyze_sentiment` returns importance
`round(c*100, 2)` when `L` upper-cases to `POSITIVE`, else
`round(-c*100, 2)`. -/
theorem claim2_importance_transform (env : Env) (occ : Nat) (text : Text)
    (label : String) (score : ℚ)
    (h : env.sentimentModel (sentimentInput text) occ = .ok (label, score)) :
    analyze_sentiment env occ text =
      (label, if pyUpper label = "POSITIVE" then round2 (score * 100)
        else round2 (-(score * 100))) := by
  simp only [analyze_sentiment, h, neg_mul, apply_ite round2]

/-- Witness for C2: (POSITIVE, 0.87) yields 87.0, (NEGATIVE, 0.42) yields -42.0. -/
theorem claim2_witness :
    analyze_sentiment envPos 0 demoText = ("POSITIVE", 87) ∧
      analyze_sentiment envNeg 0 demoText = ("NEGATIVE", -42) := by
  constructor
  · rw [claim2_importance_transform envPos 0 demoText "POSITIVE" (87 / 100) rfl,
      if_pos (by decide : pyUpper "POSITIVE" = "POSITIVE")]
    norm_num [round2, rhe]
  · rw [claim2_importance_transform envNeg 0 demoText "NEGATIVE" (42 / 100) rfl,
      if_neg (by decide : ¬pyUpper "NEGATIVE" = "POSITIVE")]
    norm_num [round2, rhe]

/-- Claim C6: when the summarization model raises, `generate_summary`
returns exactly the sentinel string and no error propagates. -/
theorem claim6_summary_sentinel (env : Env) (occ : Nat) (text : Text)
    (h : env.summarizerModel ⟨summarizerInput text, 130, 30, false⟩ occ = .error ()) :
    generate_summary env occ text = "Summary generation failed." := by
  unfold generate_summary
  rw [h]

/-- Witness for C6: the all-raising environment. -/
theorem claim6_witness : generate_summary envErr 0 demoText = "Summary generation failed." :=
  claim6_summary_sentinel envErr 0 demoText rfl

/-- Claim C7: when the sentiment model raises, `analyze_sentiment`
returns exactly `("N/A", 0)` and no error propagates. -/
theorem claim7_sentiment_degraded (env : Env) (occ : Nat) (text : Text)
    (h : env.sentimentModel (sentimentInput text) occ = .error ()) :
    analyze_sentiment env occ text = ("N/A", 0) := by
  unfold analyze_sentiment
  rw [h]

/-- Witness for C7: the all-raising environment. -/
theorem claim7_witness : analyze_sentiment envErr 0 demoText = ("N/A", 0) :=
  claim7_sentiment_degraded envErr 0 demoText rfl

/-- Claim C8: with a fixed model version — a summarization model whose
output does not depend on the call occasion when `do_sample = false`, and
an occasion-independent sentiment model — `generate_summary` and
`analyze_sentiment` return the same results on repeated calls with the
same text.  The code always passes `do_sample = false`, and both
truncations are functions of the input. -/
theorem claim8_deterministic (env : Env)
    (hsum : ∀ a o1 o2, a.do_sample = false →
      env.summarizerModel a o1 = env.summarizerModel a o2)
    (hsent : ∀ x o1 o2, env.sentimentModel x o1 = env.sentimentModel x o2)
    (text : Text) (o1 o2 : Nat) :
    generate_summary env o1 text = generate_summary env o2 text ∧
      analyze_sentiment env o1 text = analyze_sentiment env o2 text := by
  constructor
  · unfold generate_summary
    rw [hsum _ o1 o2 rfl]
  · unfold analyze_sentiment
    rw [hsent _ o1 o2]

/-- Witness for C8: a concrete occasion-independent environment, two calls. -/
theorem claim8_witness :
    generate_summary envPos 0 demoText = generate_summary envPos 1 demoText ∧
      analyze_sentiment envPos 0 demoText = analyze_sentiment envPos 1 demoText :=
  claim8_deterministic envPos (fun _ _ _ _ => rfl) (fun _ _ _ => rfl) demoText 0 1

/-- The sentiment model of `envPos` is well behaved. -/
lemma envPos_sound : ∀ x o lab c, envPos.sentimentModel x o = .ok (lab, c) →
    (lab = "POSITIVE" ∨ lab = "NEGATIVE") ∧ 0 ≤ c ∧ c ≤ 1 := by
  intro x o lab c h
  injection h with hp
  injection hp with h1 h2
  subst h1
  subst h2
  exact ⟨Or.inl rfl, by norm_num, by norm_num⟩

/-- The sentiment model of `envNeg` is well behaved. -/
lemma envNeg_sound : ∀ x o lab c, envNeg.sentimentModel x o = .ok (lab, c) →
    (lab = "POSITIVE" ∨ lab = "NEGATIVE") ∧ 0 ≤ c ∧ c ≤ 1 := by
  intro x o lab c h
  injection h with hp
  injection hp with h1 h2
  subst h1
  subst h2
  exact ⟨Or.inr rfl, by norm_num, by norm_num⟩

/-- Claim C3: when extraction succeeds with text of length at least 100
and the sentiment model returns labels in {POSITIVE, NEGATIVE} with
confidence in [0, 1], `analyze_article` returns a non-absent summary, a
label in {POSITIVE, NEGATIVE, N/A}, and an importance in [-100, 100]. -/
theorem claim3_valid_output (env : Env) (occ : Nat) (url : String) (t : Text)
    (hex : extract_article_text env url = some t) (hlen : 100 ≤ t.length)
    (hmodel : ∀ x o lab c, env.sentimentModel x o = .ok (lab, c) →
      (lab = "POSITIVE" ∨ lab = "NEGATIVE") ∧ 0 ≤ c ∧ c ≤ 1) :
    ∃ s l i, analyze_article env occ url = (some s, some l, some i) ∧
      (l = "POSITIVE" ∨ l = "NEGATIVE" ∨ l = "N/A") ∧ (-100 : ℚ) ≤ i ∧ i ≤ 100 := by
  have hgate : ¬(t = [] ∨ t.length < 100) := by
    push_neg
    refine ⟨?_, by omega⟩
    intro h
    subst h
    simp at hlen
  refine ⟨generate_summary env occ t, (analyze_sentiment env occ t).1,
    (analyze_sentiment env occ t).2, by simp [analyze_article, hex, hgate], ?_⟩
  rcases analyze_sentiment_cases env occ t with ⟨lab, c, hs, heq⟩ | ⟨hs, heq⟩
  · obtain ⟨hlab, hc0, hc1⟩ := hmodel _ _ _ _ hs
    rw [heq]
    have hbounds : (-100 : ℚ) ≤ (if pyUpper lab = "POSITIVE" then c * 100 else -c * 100) ∧
        (if pyUpper lab = "POSITIVE" then c * 100 else -c * 100) ≤ 100 := by
      split <;> constructor <;> linarith
    refine ⟨?_, ?_, ?_⟩
    · rcases hlab with rfl | rfl
      · exact Or.inl rfl
      · exact Or.inr (Or.inl rfl)
    · have := le_round2 _ (-100) (by push_cast; linarith [hbounds.1])
      simpa using this
    · have := round2_le _ 100 (by push_cast; linarith [hbounds.2])
      simpa using this
  · rw [heq]
    exact ⟨Or.inr (Or.inr rfl), by norm_num, by norm_num⟩

/-- Witness for C3: `envPos` with its 100-character article. -/
theorem claim3_witness :
    ∃ s l i, analyze_article envPos 0 "u" = (some s, some l, some i) ∧
      (l = "POSITIVE" ∨ l = "NEGATIVE" ∨ l = "N/A") ∧ (-100 : ℚ) ≤ i ∧ i ≤ 100 :=
  claim3_valid_output envPos 0 "u" demoText rfl (by simp [demoText]) envPos_sound

/-- Claim C4: under the same sentiment-model assumptions, the sign of the
importance returned by `analyze_sentiment` matches the label: POSITIVE
implies a non-negative score, NEGATIVE a non-positive one, and N/A zero. -/
theorem claim4_sign_matches_label (env : Env) (occ : Nat) (text : Text)
    (hmodel : ∀ x o lab c, env.sentimentModel x o = .ok (lab, c) →
      (lab = "POSITIVE" ∨ lab = "NEGATIVE") ∧ 0 ≤ c ∧ c ≤ 1) :
    ((analyze_sentiment env occ text).1 = "POSITIVE" →
        0 ≤ (analyze_sentiment env occ text).2) ∧
      ((analyze_sentiment env occ text).1 = "NEGATIVE" →
        (analyze_sentiment env occ text).2 ≤ 0) ∧
      ((analyze_sentiment env occ text).1 = "N/A" →
        (analyze_sentiment env occ text).2 = 0) := by
  rcases analyze_sentiment_cases env occ text with ⟨lab, c, hs, heq⟩ | ⟨hs, heq⟩
  · obtain ⟨hlab, hc0, hc1⟩ := hmodel _ _ _ _ hs
    rw [heq]
    rcases hlab with rfl | rfl
    · rw [if_pos (by decide : pyUpper "POSITIVE" = "POSITIVE")]
      refine ⟨fun _ => ?_, fun hcon => by simp at hcon, fun hcon => by simp at hcon⟩
      have := le_round2 (c * 100) 0 (by push_cast; linarith)
      simpa using this
    · rw [if_neg (by decide : ¬pyUpper "NEGATIVE" = "POSITIVE")]
      refine ⟨fun hcon => by simp at hcon, fun _ => ?_, fun hcon => by simp at hcon⟩
      have := round2_le (-c * 100) 0 (by push_cast; linarith)
      simpa using this
  · rw [heq]
    exact ⟨fun hcon => by simp at hcon, fun hcon => by simp at hcon, fun _ => rfl⟩

/-- Witness for C4: a positive and a negative concrete classification. -/
theorem claim4_witness :
    0 ≤ (analyze_sentiment envPos 0 demoText).2 ∧
      (analyze_sentiment envNeg 0 demoText).2 ≤ 0 :=
  ⟨(claim4_sign_matches_label envPos 0 demoText envPos_sound).1 rfl,
   (claim4_sign_matches_label envNeg 0 demoText envNeg_sound).2.1 rfl⟩

/-- Claim C5: the text submitted to the summarization model has at most
1024 whitespace-delimited tokens, and the text submitted to the sentiment
model is a character-wise initial segment of the input of length at most
512 (`generate_summary` submits `summarizerInput text` and
`analyze_sentiment` submits `sentimentInput text`, by definition). -/
theorem claim5_truncation_invariant (text : Text) :
    (splitWords (summarizerInput text)).length ≤ 1024 ∧
      (sentimentInput text).length ≤ 512 ∧
      ∃ rest, sentimentInput text ++ rest = text := by
  refine ⟨?_, ?_, ⟨text.drop 512, List.take_append_drop _ _⟩⟩
  · rw [splitWords_summarizerInput, List.length_take]
    omega
  · simp only [sentimentInput, List.length_take]
    omega

/-- Witness for C5: the truncation bound at the 100-character article. -/
theorem claim5_witness : (splitWords (summarizerInput demoText)).length ≤ 1024 ∧
    (sentimentInput demoText).length ≤ 512 :=
  ⟨(claim5_truncation_invariant demoText).1, (claim5_truncation_invariant demoText).2.1⟩

/-- Claim C9: the batch-mode table has one row per article passing the
extraction-and-length gate (rows survive model failures, since the gate
only inspects extraction), the rows identify those articles in order, and
the table is nonempty exactly when some article passes the gate. -/
theorem claim9_batch_table (env : Env) (occ : Nat) (articles : List (String × String)) :
    (runBatch env occ articles).length =
        (articles.filter (fun p => gatePasses env p.2)).length ∧
      (runBatch env occ articles).map (fun r => (r.title, r.url)) =
        articles.filter (fun p => gatePasses env p.2) ∧
      (runBatch env occ articles ≠ [] ↔ ∃ p ∈ articles, gatePasses env p.2 = true) := by
  have hmap := runBatch_rows env articles occ
  have hlen : (runBatch env occ articles).length =
      (articles.filter (fun p => gatePasses env p.2)).length := by
    rw [← hmap, List.length_map]
  refine ⟨hlen, hmap, ?_, ?_⟩
  · intro h
    have h1 : 0 < (articles.filter (fun p => gatePasses env p.2)).length := by
      rw [← hlen]
      exact List.length_pos.mpr h
    obtain ⟨p, hp⟩ := List.exists_mem_of_ne_nil _ (List.length_pos.mp h1)
    exact ⟨p, (List.mem_filter.mp hp).1, (List.mem_filter.mp hp).2⟩
  · rintro ⟨p, hpmem, hpgate⟩
    have h1 : 0 < (articles.filter (fun p => gatePasses env p.2)).length :=
      List.length_pos.mpr (List.ne_nil_of_mem (List.mem_filter.mpr ⟨hpmem, hpgate⟩))
    rw [← hlen] at h1
    exact List.length_pos.mp h1

/-- Witness for C9: a passing article gives one row; an all-failing
extractor gives an empty table. -/
theorem claim9_witness :
    (runBatch envPos 0 [("T", "u")]).length = 1 ∧ runBatch envErr 0 [("T", "u")] = [] := by
  constructor
  · rw [(claim9_batch_table envPos 0 [("T", "u")]).1]
    simp [gatePasses, extract_article_text, envPos, demoText]
  · by_contra h
    obtain ⟨p, hp, hg⟩ := (claim9_batch_table envErr 0 [("T", "u")]).2.2.mp h
    simp [gatePasses, extract_article_text, envErr] at hg

/-- Claim C10: the text submitted to the summarization model is the input
itself when it has at most 1024 whitespace-delimited tokens, and otherwise
the first 1024 tokens rejoined with single spaces; its token list is
always the first 1024 tokens of the input, and any whitespace character
surviving in the rejoined form is a single space (so newlines and
whitespace runs of the input are collapsed rather than kept). -/
theorem claim10_summarizer_submission (text : Text) :
    summarizerInput text =
        (if 1024 < (splitWords text).length then joinSpace ((splitWords text).take 1024)
          else text) ∧
      splitWords (summarizerInput text) = (splitWords text).take 1024 ∧
      ∀ c ∈ joinSpace ((splitWords text).take 1024), c.isWhitespace = true → c = ' ' := by
  refine ⟨rfl, splitWords_summarizerInput text, ?_⟩
  exact joinSpace_space_only _
    (fun w hw => (splitWords_sound text w (List.take_subset _ _ hw)).2)

/-- Witness for C10: the two-word text `"a b"` passes through unchanged,
and the membership hypothesis is discharged at the joining space. -/
theorem claim10_witness :
    summarizerInput ['a', ' ', 'b'] = ['a', ' ', 'b'] ∧ (' ' : Char) = ' ' := by
  have hs : splitWords ['a', ' ', 'b'] = [['a'], ['b']] := by
    simp [splitWords, takeWord, dropWord]
  constructor
  · rw [(claim10_summarizer_submission ['a', ' ', 'b']).1, hs]
    norm_num
  · refine (claim10_summarizer_submission ['a', ' ', 'b']).2.2 ' ' ?_ (by decide)
    rw [hs, List.take_of_length_le (by norm_num), joinSpace_cons2, joinSpace_single]
    simp

end NewsApp
